import Mathlib

/-!
Verification of the OCSS (online convenience store system) core against its
natural-language specification.  The Python source under `src/` is shallowly
embedded: the in-memory stock cache (`Inventory._stock_cache`, a dict from
product id to int) becomes a total function `Nat → Int` (the dict's
`.get(pid, 0)` default is the function's value off the written keys), mutation
becomes explicit state passing, and raised exceptions become explicit error
values carried next to the post-state, since a Python method that raises can
still have mutated state before the raise.
-/

namespace OCSS

/-- Python exceptions raised by the embedded code. -/
inductive PyExn where
  /-- `ValueError` — bad quantity / unknown reference / unsupported method. -/
  | valueError
  /-- `InsufficientStockError` from `business/exceptions/errors.py`. -/
  | insufficientStock
  /-- `CartEmptyError` from `business/exceptions/errors.py`. -/
  | cartEmpty
  /-- `TypeError` — e.g. subscripting an object with no `__getitem__`. -/
  | typeError
  /-- `AttributeError` — attribute lookup on an object lacking it. -/
  | attributeError
  deriving DecidableEq, Repr

/-- The `Inventory._stock_cache` dict, `product_id -> quantity`: a total map
with default 0 exactly as `check_stock` reads it (`.get(product_id, 0)`). -/
def Stock : Type := Nat → Int

/-- Result of one inventory operation: the optional exception raised and the
state of the stock cache when the call returns (normally or by raising). -/
structure OpResult where
  err : Option PyExn
  state : Stock

/-- Pointwise update of the stock cache (`self._stock_cache[product_id] = v`). -/
def stockSet (s : Stock) (pid : Nat) (v : Int) : Stock :=
  fun p => if p = pid then v else s p

/-- `Inventory.check_stock`: the cached quantity, 0 for unknown products. -/
def check_stock (s : Stock) (pid : Nat) : Int := s pid

/-- `Inventory.reserve_stock`: `ValueError` when `qty <= 0`,
`InsufficientStockError` when `check_stock(pid) < qty`, otherwise the cache
entry becomes `current - qty`.  On either raise the cache is untouched. -/
def reserve_stock (s : Stock) (pid : Nat) (qty : Int) : OpResult :=
  if qty ≤ 0 then ⟨some .valueError, s⟩
  else if check_stock s pid < qty then ⟨some .insufficientStock, s⟩
  else ⟨none, stockSet s pid (check_stock s pid - qty)⟩

/-- `Inventory.release_stock`: `ValueError` when `qty <= 0`, otherwise adds
`qty` to the current quantity unconditionally. -/
def release_stock (s : Stock) (pid : Nat) (qty : Int) : OpResult :=
  if qty ≤ 0 then ⟨some .valueError, s⟩
  else ⟨none, stockSet s pid (check_stock s pid + qty)⟩

/-- `Inventory.set_stock`: `ValueError` when `new_qty < 0`, otherwise
overwrites the entry. -/
def set_stock (s : Stock) (pid : Nat) (qty : Int) : OpResult :=
  if qty < 0 then ⟨some .valueError, s⟩
  else ⟨none, stockSet s pid qty⟩

/-- One element of the list handed to the batch operations — the dict
`{"product_id": pid, "qty": qty}` (the `int(...)` casts in the source are
identities on these already-integer fields). -/
structure BatchItem where
  pid : Nat
  qty : Int
  deriving DecidableEq, Repr

/-- The rollback loop of `Inventory.reserve_batch`: releases each previously
reserved item in reservation order; an exception from a release is swallowed
(`try/except: pass`), leaving the cache as that failed release left it. -/
def rollbackReleases (s : Stock) (reserved : List BatchItem) : Stock :=
  match reserved with
  | [] => s
  | r :: rest => rollbackReleases (release_stock s r.pid r.qty).state rest

/-- The main loop of `Inventory.reserve_batch`, carrying the `reserved`
accumulator.  On the first failing reservation the accumulated items are
released and the original exception is re-raised. -/
def reserveBatchAux (s : Stock) (items : List BatchItem) (reserved : List BatchItem) :
    OpResult :=
  match items with
  | [] => ⟨none, s⟩
  | it :: rest =>
    let r := reserve_stock s it.pid it.qty
    match r.err with
    | none => reserveBatchAux r.state rest (reserved ++ [it])
    | some e => ⟨some e, rollbackReleases r.state reserved⟩

/-- `Inventory.reserve_batch`. -/
def reserve_batch (s : Stock) (items : List BatchItem) : OpResult :=
  reserveBatchAux s items []

/-- `Inventory.release_batch`: releases each item in order with no rollback;
a failing release stops the loop and propagates, earlier releases kept. -/
def release_batch (s : Stock) (items : List BatchItem) : OpResult :=
  match items with
  | [] => ⟨none, s⟩
  | it :: rest =>
    let r := release_stock s it.pid it.qty
    match r.err with
    | none => release_batch r.state rest
    | some e => ⟨some e, r.state⟩

/-- The five mutating operations of the `Inventory` class. -/
inductive InvOp where
  | reserve (pid : Nat) (qty : Int)
  | release (pid : Nat) (qty : Int)
  | setStock (pid : Nat) (qty : Int)
  | reserveBatch (items : List BatchItem)
  | releaseBatch (items : List BatchItem)

/-- The stock cache after running one operation, whether it returned normally
or raised (the state component of the `OpResult` is the cache at the moment
the exception, if any, escapes the method). -/
def applyOp (s : Stock) (op : InvOp) : Stock :=
  match op with
  | .reserve pid qty => (reserve_stock s pid qty).state
  | .release pid qty => (release_stock s pid qty).state
  | .setStock pid qty => (set_stock s pid qty).state
  | .reserveBatch items => (reserve_batch s items).state
  | .releaseBatch items => (release_batch s items).state

/-- The stock cache after a finite sequence of inventory operations. -/
def applyOps (s : Stock) (ops : List InvOp) : Stock :=
  match ops with
  | [] => s
  | op :: rest => applyOps (applyOp s op) rest

/-- Every cached quantity is non-negative. -/
def StockNonNeg (s : Stock) : Prop := ∀ pid, 0 ≤ s pid

/-- Sequential reservation with no rollback: the prefix behaviour of
`reserve_batch` up to (and including) its first failure. -/
def reserveSeq (s : Stock) (items : List BatchItem) : OpResult :=
  match items with
  | [] => ⟨none, s⟩
  | it :: rest =>
    let r := reserve_stock s it.pid it.qty
    match r.err with
    | none => reserveSeq r.state rest
    | some e => ⟨some e, r.state⟩

/-- Total quantity a batch carries for one product id. -/
def qtySum (items : List BatchItem) (pid : Nat) : Int :=
  match items with
  | [] => 0
  | x :: rest => (if x.pid = pid then x.qty else 0) + qtySum rest pid

theorem reserve_stock_err_state (s : Stock) (pid : Nat) (qty : Int) (e : PyExn)
    (h : (reserve_stock s pid qty).err = some e) :
    (reserve_stock s pid qty).state = s := by
  by_cases h1 : qty ≤ 0
  · simp [reserve_stock, h1]
  · by_cases h2 : check_stock s pid < qty
    · simp [reserve_stock, h1, h2]
    · simp [reserve_stock, h1, h2] at h

theorem reserve_stock_ok (s : Stock) (pid : Nat) (qty : Int)
    (h : (reserve_stock s pid qty).err = none) :
    0 < qty ∧ qty ≤ s pid ∧
      (reserve_stock s pid qty).state = stockSet s pid (s pid - qty) := by
  by_cases h1 : qty ≤ 0
  · simp [reserve_stock, h1] at h
  · by_cases h2 : check_stock s pid < qty
    · simp [reserve_stock, h1, h2] at h
    · simp only [check_stock] at h2
      refine ⟨by omega, by omega, ?_⟩
      simp [reserve_stock, h1, h2, check_stock]

theorem release_stock_pos (s : Stock) (pid : Nat) (qty : Int) (h : 0 < qty) :
    release_stock s pid qty = ⟨none, stockSet s pid (s pid + qty)⟩ := by
  unfold release_stock
  rw [if_neg (by omega)]
  rfl

theorem reserve_stock_nonneg (s : Stock) (pid : Nat) (qty : Int)
    (h : StockNonNeg s) : StockNonNeg (reserve_stock s pid qty).state := by
  intro p
  unfold reserve_stock
  split
  · exact h p
  · split
    · exact h p
    · rename_i h1 h2
      simp only [check_stock] at h2
      simp only [stockSet, check_stock]
      split
      · omega
      · exact h p

theorem release_stock_nonneg (s : Stock) (pid : Nat) (qty : Int)
    (h : StockNonNeg s) : StockNonNeg (release_stock s pid qty).state := by
  intro p
  unfold release_stock
  split
  · exact h p
  · rename_i h1
    simp only [stockSet, check_stock]
    split
    · have := h pid
      omega
    · exact h p

theorem set_stock_nonneg (s : Stock) (pid : Nat) (qty : Int)
    (h : StockNonNeg s) : StockNonNeg (set_stock s pid qty).state := by
  intro p
  unfold set_stock
  split
  · exact h p
  · rename_i h1
    simp only [stockSet]
    split
    · omega
    · exact h p

theorem rollbackReleases_nonneg (reserved : List BatchItem) :
    ∀ s : Stock, StockNonNeg s → StockNonNeg (rollbackReleases s reserved) := by
  induction reserved with
  | nil => intro s h; exact h
  | cons r rest ih =>
    intro s h
    exact ih _ (release_stock_nonneg s r.pid r.qty h)

theorem reserveBatchAux_nonneg (items : List BatchItem) :
    ∀ (s : Stock) (reserved : List BatchItem), StockNonNeg s →
      StockNonNeg (reserveBatchAux s items reserved).state := by
  induction items with
  | nil => intro s reserved h; exact h
  | cons it rest ih =>
    intro s reserved h
    unfold reserveBatchAux
    dsimp only
    cases hr : (reserve_stock s it.pid it.qty).err with
    | none =>
      exact ih _ _ (reserve_stock_nonneg s it.pid it.qty h)
    | some e =>
      exact rollbackReleases_nonneg reserved _ (reserve_stock_nonneg s it.pid it.qty h)

theorem release_batch_nonneg (items : List BatchItem) :
    ∀ s : Stock, StockNonNeg s → StockNonNeg (release_batch s items).state := by
  induction items with
  | nil => intro s h; exact h
  | cons it rest ih =>
    intro s h
    unfold release_batch
    dsimp only
    cases hr : (release_stock s it.pid it.qty).err with
    | none => exact ih _ (release_stock_nonneg s it.pid it.qty h)
    | some e => exact release_stock_nonneg s it.pid it.qty h

theorem applyOp_nonneg (s : Stock) (op : InvOp) (h : StockNonNeg s) :
    StockNonNeg (applyOp s op) := by
  cases op with
  | reserve pid qty => exact reserve_stock_nonneg s pid qty h
  | release pid qty => exact release_stock_nonneg s pid qty h
  | setStock pid qty => exact set_stock_nonneg s pid qty h
  | reserveBatch items => exact reserveBatchAux_nonneg items s [] h
  | releaseBatch items => exact release_batch_nonneg items s h

theorem applyOps_nonneg (ops : List InvOp) :
    ∀ s : Stock, StockNonNeg s → StockNonNeg (applyOps s ops) := by
  induction ops with
  | nil => intro s h; exact h
  | cons op rest ih => intro s h; exact ih _ (applyOp_nonneg s op h)

theorem reserveSeq_ok (items : List BatchItem) :
    ∀ s t : Stock, reserveSeq s items = ⟨none, t⟩ →
      (∀ x ∈ items, 0 < x.qty) ∧ ∀ p, t p = s p - qtySum items p := by
  induction items with
  | nil =>
    intro s t h
    simp only [reserveSeq, OpResult.mk.injEq, true_and] at h
    subst h
    simp [qtySum]
  | cons it rest ih =>
    intro s t h
    unfold reserveSeq at h
    dsimp only at h
    cases hr : (reserve_stock s it.pid it.qty).err with
    | some e => rw [hr] at h; simp at h
    | none =>
      rw [hr] at h
      obtain ⟨hq, hle, hst⟩ := reserve_stock_ok s it.pid it.qty hr
      obtain ⟨hall, hdelta⟩ := ih _ _ h
      refine ⟨?_, ?_⟩
      · intro x hx
        rcases List.mem_cons.mp hx with rfl | hx
        · exact hq
        · exact hall x hx
      · intro p
        have hd := hdelta p
        rw [hst] at hd
        by_cases hp : p = it.pid
        · subst hp
          simp [stockSet] at hd
          simp [qtySum]
          omega
        · simp [stockSet, hp] at hd
          simp [qtySum, Ne.symm hp]
          omega

theorem rollbackReleases_delta (reserved : List BatchItem) :
    ∀ s : Stock, (∀ x ∈ reserved, 0 < x.qty) →
      ∀ p, rollbackReleases s reserved p = s p + qtySum reserved p := by
  induction reserved with
  | nil => intro s _ p; simp [rollbackReleases, qtySum]
  | cons r rest ih =>
    intro s h p
    have hq : 0 < r.qty := h r (List.mem_cons_self r rest)
    unfold rollbackReleases
    rw [release_stock_pos s r.pid r.qty hq]
    have h2 := ih (stockSet s r.pid (s r.pid + r.qty))
      (fun x hx => h x (List.mem_cons_of_mem r hx)) p
    dsimp only
    rw [h2]
    by_cases hp : p = r.pid
    · subst hp
      simp [stockSet, qtySum]
      try omega
    · simp [stockSet, hp, qtySum, Ne.symm hp]
      try omega

theorem reserveBatchAux_fail (pre : List BatchItem) :
    ∀ (s t : Stock) (reserved : List BatchItem) (it : BatchItem)
      (post : List BatchItem) (e : PyExn),
      reserveSeq s pre = ⟨none, t⟩ →
      (reserve_stock t it.pid it.qty).err = some e →
      reserveBatchAux s (pre ++ it :: post) reserved =
        ⟨some e, rollbackReleases t (reserved ++ pre)⟩ := by
  induction pre with
  | nil =>
    intro s t reserved it post e h1 h2
    simp only [reserveSeq, OpResult.mk.injEq, true_and] at h1
    subst h1
    show reserveBatchAux s (it :: post) reserved = _
    unfold reserveBatchAux
    dsimp only
    rw [h2]
    rw [reserve_stock_err_state s it.pid it.qty e h2]
    simp
  | cons x pre' ih =>
    intro s t reserved it post e h1 h2
    unfold reserveSeq at h1
    dsimp only at h1
    cases hr : (reserve_stock s x.pid x.qty).err with
    | some e2 => rw [hr] at h1; simp at h1
    | none =>
      rw [hr] at h1
      show reserveBatchAux s (x :: (pre' ++ it :: post)) reserved = _
      unfold reserveBatchAux
      dsimp only
      rw [hr]
      rw [ih _ t (reserved ++ [x]) it post e h1 h2]
      simp [List.append_assoc]

/-- Concrete stock cache for witnesses: product 1 stocked at 50, nothing else. -/
def stock50 : Stock := fun p => if p = 1 then 50 else 0

/-- C2 — Stock non-negativity invariant: starting from any stock cache whose
quantities are all `≥ 0`, after any finite sequence of `Inventory` operations
(`reserve_stock`, `release_stock`, `set_stock`, `reserve_batch`,
`release_batch`), whether each returned normally or raised, `check_stock`
is still `≥ 0` for every product (arbitrary sequences include every prefix,
so this holds after every intermediate operation as well). -/
theorem stock_nonneg_invariant (ops : List InvOp) (s : Stock)
    (h : StockNonNeg s) (pid : Nat) : 0 ≤ check_stock (applyOps s ops) pid :=
  applyOps_nonneg ops s h pid

/-- Witness for C2 at a concrete state and operation sequence. -/
theorem stock_nonneg_invariant_witness :
    0 ≤ check_stock (applyOps stock50
      [InvOp.reserve 1 20, InvOp.releaseBatch [⟨1, 7⟩],
       InvOp.setStock 2 3, InvOp.reserve 1 9999]) 1 :=
  stock_nonneg_invariant _ stock50
    (fun pid => by by_cases hp : pid = 1 <;> simp [stock50, hp]) 1

/-- C3 — Batch reservation atomicity: if `reserve_batch` fails at item `k`
(the items split as `pre ++ it :: post` where every reservation in `pre`
succeeds, reaching cache `t`, and reserving `it` from `t` raises `e`), then
the call re-raises the original exception `e` and afterwards every product's
stock — those reserved in `pre`, the failing item, and the untouched
`post` — is identical to its pre-call value; the compensating releases
run in reservation order and any exception they raise is swallowed
(`rollbackReleases` keeps going), never propagated. -/
theorem batch_reservation_atomic (pre : List BatchItem) (it : BatchItem)
    (post : List BatchItem) (s t : Stock) (e : PyExn)
    (h1 : reserveSeq s pre = ⟨none, t⟩)
    (h2 : (reserve_stock t it.pid it.qty).err = some e) :
    (reserve_batch s (pre ++ it :: post)).err = some e ∧
    ∀ pid, (reserve_batch s (pre ++ it :: post)).state pid = s pid := by
  have hmain := reserveBatchAux_fail pre s t [] it post e h1 h2
  unfold reserve_batch
  rw [hmain]
  refine ⟨rfl, ?_⟩
  intro pid
  obtain ⟨hall, hdelta⟩ := reserveSeq_ok pre s t h1
  have hro := rollbackReleases_delta pre t hall pid
  dsimp only
  simp only [List.nil_append]
  rw [hro, hdelta pid]
  omega

/-- Witness for C3: the spec scenario `reserveBatch([{p1,5},{p2,9999}])`
against p1 stocked at 50 and p2 unstocked. -/
theorem batch_reservation_atomic_witness :
    (reserve_batch stock50 [⟨1, 5⟩, ⟨2, 9999⟩]).err = some PyExn.insufficientStock ∧
    (reserve_batch stock50 [⟨1, 5⟩, ⟨2, 9999⟩]).state 1 = stock50 1 := by
  have h := batch_reservation_atomic [⟨1, 5⟩] ⟨2, 9999⟩ [] stock50
    (stockSet stock50 1 (check_stock stock50 1 - 5)) PyExn.insufficientStock
    rfl (by decide)
  exact ⟨h.1, h.2 1⟩

/-- C5 — Single reservation semantics: `reserve_stock` raises `ValueError`
when `qty ≤ 0`; otherwise raises `InsufficientStockError` when
`check_stock(pid) < qty`; otherwise returns normally with the product's
quantity decremented by exactly `qty` and every other product untouched.
On either failure the whole cache equals its pre-call value. -/
theorem reserve_stock_spec (s : Stock) (pid : Nat) (qty : Int) :
    (qty ≤ 0 → reserve_stock s pid qty = ⟨some PyExn.valueError, s⟩) ∧
    (0 < qty → check_stock s pid < qty →
      reserve_stock s pid qty = ⟨some PyExn.insufficientStock, s⟩) ∧
    (0 < qty → qty ≤ check_stock s pid →
      (reserve_stock s pid qty).err = none ∧
      (reserve_stock s pid qty).state pid = check_stock s pid - qty ∧
      ∀ p, p ≠ pid → (reserve_stock s pid qty).state p = s p) := by
  refine ⟨?_, ?_, ?_⟩
  · intro h1
    simp [reserve_stock, h1]
  · intro h1 h2
    simp [reserve_stock, h2]
    omega
  · intro h1 h2
    have hn1 : ¬ qty ≤ 0 := by omega
    have hn2 : ¬ check_stock s pid < qty := by omega
    refine ⟨by simp [reserve_stock, hn1, hn2], ?_, ?_⟩
    · simp [reserve_stock, hn1, hn2, stockSet]
    · intro p hp
      simp [reserve_stock, hn1, hn2, stockSet, hp]

/-- Witness for C5: the spec scenario `reserve(1, 9999)` against stock 50
fails with `InsufficientStock` and the cache is unchanged. -/
theorem reserve_stock_spec_witness :
    reserve_stock stock50 1 9999 = ⟨some PyExn.insufficientStock, stock50⟩ :=
  (reserve_stock_spec stock50 1 9999).2.1 (by decide) (by decide)

/-- A `Product` as reconstructed by `Product.from_dict`: identifier, name and
`Decimal` unit price (modelled as `ℚ`).  The `description`/`category` fields
play no part in any verified operation and are elided. -/
structure Product where
  id : Nat
  name : String
  price : ℚ
  deriving DecidableEq

/-- `StorageManager.find_by_id` / `Product.find_by_id`: first record whose id
matches, `None` otherwise. -/
def findById (products : List Product) (pid : Nat) : Option Product :=
  match products with
  | [] => none
  | p :: rest => if p.id = pid then some p else findById rest pid

/-- One line item of a cart (`CartItem`): the referenced product, the chosen
quantity, and the cached `subtotal = Decimal(str(price)) * quantity`. -/
structure CartItem where
  product : Product
  quantity : Int
  subtotal : ℚ
  deriving DecidableEq

/-- The `CartItem` constructor: `ValueError` when `quantity <= 0`, otherwise
the item with its subtotal computed from the product's price. -/
def mkCartItem (p : Product) (qty : Int) : Except PyExn CartItem :=
  if qty ≤ 0 then .error .valueError
  else .ok ⟨p, qty, p.price * (qty : ℚ)⟩

/-- `CartItem.update_quantity`: `ValueError` when `new_qty < 0`, otherwise
overwrites the quantity and recomputes the subtotal. -/
def updateQuantity (ci : CartItem) (newQty : Int) : Except PyExn CartItem :=
  if newQty < 0 then .error .valueError
  else .ok ⟨ci.product, newQty, ci.product.price * (newQty : ℚ)⟩

/-- The loop body of `Cart.add_item`: the first line item whose product id
matches has its quantity increased (subtotal recomputed); when no line item
matches, a fresh `CartItem` is appended at the end. -/
def addToItems (pid : Nat) (p : Product) (qty : Int) (items : List CartItem) :
    Except PyExn (List CartItem) :=
  match items with
  | [] => (mkCartItem p qty).map (fun ci => [ci])
  | ci :: rest =>
    if ci.product.id = pid then
      (updateQuantity ci (ci.quantity + qty)).map (fun c => c :: rest)
    else
      (addToItems pid p qty rest).map (fun l => ci :: l)

/-- `Cart.add_item`: `ValueError` when `qty <= 0` or the product id is
unknown, otherwise merge-or-append per `addToItems`. -/
def add_item (products : List Product) (items : List CartItem) (pid : Nat)
    (qty : Int) : Except PyExn (List CartItem) :=
  if qty ≤ 0 then .error .valueError
  else
    match findById products pid with
    | none => .error .valueError
    | some p => addToItems pid p qty items

/-- `Cart.total`: `sum((item.subtotal for item in self.items), Decimal("0"))`. -/
def cartTotal (items : List CartItem) : ℚ :=
  items.foldl (fun acc ci => acc + ci.subtotal) 0

/-- The dict `{"product_id": item.product.id, "qty": item.quantity}` that
`Cart.reserve_all` appends to its `reserved` list. -/
def toBatchItem (ci : CartItem) : BatchItem := ⟨ci.product.id, ci.quantity⟩

/-- The loop of `Cart.reserve_all` with its `reserved` accumulator; its
rollback loop is character-for-character the one in `Inventory.reserve_batch`
(release each reserved item in order, swallowing release exceptions), hence
shares `rollbackReleases`. -/
def cartReserveAllAux (s : Stock) (items : List CartItem)
    (reserved : List BatchItem) : OpResult :=
  match items with
  | [] => ⟨none, s⟩
  | ci :: rest =>
    let r := reserve_stock s ci.product.id ci.quantity
    match r.err with
    | none => cartReserveAllAux r.state rest (reserved ++ [toBatchItem ci])
    | some e => ⟨some e, rollbackReleases r.state reserved⟩

/-- `Cart.reserve_all`. -/
def cart_reserve_all (s : Stock) (items : List CartItem) : OpResult :=
  cartReserveAllAux s items []

/-- `Cart.release_all`: releases each item's quantity in order, no rollback,
a failing release propagating with earlier releases kept. -/
def cart_release_all (s : Stock) (items : List CartItem) : OpResult :=
  match items with
  | [] => ⟨none, s⟩
  | ci :: rest =>
    let r := release_stock s ci.product.id ci.quantity
    match r.err with
    | none => cart_release_all r.state rest
    | some e => ⟨some e, r.state⟩

theorem cartReserveAllAux_eq_batch (items : List CartItem) :
    ∀ (s : Stock) (reserved : List BatchItem),
      cartReserveAllAux s items reserved =
        reserveBatchAux s (items.map toBatchItem) reserved := by
  induction items with
  | nil => intro s reserved; rfl
  | cons ci rest ih =>
    intro s reserved
    show cartReserveAllAux s (ci :: rest) reserved = _
    unfold cartReserveAllAux reserveBatchAux
    dsimp only [List.map_cons, toBatchItem]
    cases hr : (reserve_stock s ci.product.id ci.quantity).err with
    | none => exact ih _ _
    | some e => rfl

theorem cart_release_all_eq_batch (items : List CartItem) :
    ∀ s : Stock, cart_release_all s items =
      release_batch s (items.map toBatchItem) := by
  induction items with
  | nil => intro s; rfl
  | cons ci rest ih =>
    intro s
    unfold cart_release_all release_batch
    dsimp only [List.map_cons, toBatchItem]
    cases hr : (release_stock s ci.product.id ci.quantity).err with
    | none => exact ih _
    | some e => rfl

/-- C8 — Batch delegation equivalence: on any stock cache, `Cart.reserve_all`
returns exactly what `Inventory.reserve_batch` returns on the cart's items
rendered as `{"product_id", "qty"}` dicts — same post-state, same raised or
normal outcome, same per-item order, same rollback with swallowed release
exceptions — and `Cart.release_all` likewise coincides with
`Inventory.release_batch` on the same items. -/
theorem cart_batch_delegation (s : Stock) (items : List CartItem) :
    cart_reserve_all s items = reserve_batch s (items.map toBatchItem) ∧
    cart_release_all s items = release_batch s (items.map toBatchItem) :=
  ⟨cartReserveAllAux_eq_batch items s [], cart_release_all_eq_batch items s⟩

theorem findById_id (products : List Product) (pid : Nat) (p : Product)
    (h : findById products pid = some p) : p.id = pid := by
  induction products with
  | nil => simp [findById] at h
  | cons q rest ih =>
    unfold findById at h
    split at h
    · cases h
      assumption
    · exact ih h

theorem addToItems_append (items : List CartItem) :
    ∀ (pid : Nat) (p : Product) (qty : Int),
      (∀ ci ∈ items, ci.product.id ≠ pid) → 0 < qty →
      addToItems pid p qty items = .ok (items ++ [⟨p, qty, p.price * (qty : ℚ)⟩]) := by
  induction items with
  | nil =>
    intro pid p qty _ hq
    have hn : ¬ qty ≤ 0 := by omega
    unfold addToItems mkCartItem
    rw [if_neg hn]
    rfl
  | cons ci rest ih =>
    intro pid p qty hnot hq
    have hne : ci.product.id ≠ pid := hnot ci (List.mem_cons_self ci rest)
    unfold addToItems
    rw [if_neg hne]
    rw [ih pid p qty (fun x hx => hnot x (List.mem_cons_of_mem ci hx)) hq]
    rfl

theorem addToItems_merge (items : List CartItem) :
    ∀ (pid : Nat) (p : Product) (qty : Int) (ci : CartItem),
      (∀ x ∈ items, x.product.id ≠ pid) → ci.product.id = pid →
      0 ≤ ci.quantity + qty →
      addToItems pid p qty (items ++ [ci]) =
        .ok (items ++ [⟨ci.product, ci.quantity + qty,
          ci.product.price * ((ci.quantity + qty : Int) : ℚ)⟩]) := by
  induction items with
  | nil =>
    intro pid p qty ci _ hid hge
    have hn : ¬ ci.quantity + qty < 0 := by omega
    simp only [List.nil_append]
    unfold addToItems
    rw [if_pos hid]
    unfold updateQuantity
    rw [if_neg hn]
    rfl
  | cons x rest ih =>
    intro pid p qty ci hnot hid hge
    have hne : x.product.id ≠ pid := hnot x (List.mem_cons_self x rest)
    show addToItems pid p qty (x :: (rest ++ [ci])) = _
    unfold addToItems
    rw [if_neg hne]
    rw [ih pid p qty ci (fun y hy => hnot y (List.mem_cons_of_mem x hy)) hid hge]
    rfl

/-- The line item produced for product `p` with quantity `q`. -/
def lineItem (p : Product) (q : Int) : CartItem := ⟨p, q, p.price * (q : ℚ)⟩

/-- C6 — Cart merge: with product `pid` present in the catalogue (price
`p.price`) and absent from the cart, adding quantities `a` then `b`
(both positive) first appends one line item and then merges into it, so the
final cart is the original plus exactly one line item for `pid` carrying
quantity `a + b` and subtotal `price × (a + b)`; filtering the final cart by
`pid` yields exactly that one item, and distinctness of product ids across
line items is preserved. -/
theorem cart_merge (products : List Product) (items : List CartItem)
    (pid : Nat) (p : Product) (a b : Int)
    (hfind : findById products pid = some p)
    (hnot : ∀ ci ∈ items, ci.product.id ≠ pid)
    (hnodup : (items.map (fun ci => ci.product.id)).Nodup)
    (ha : 0 < a) (hb : 0 < b) :
    add_item products items pid a = .ok (items ++ [lineItem p a]) ∧
    add_item products (items ++ [lineItem p a]) pid b =
      .ok (items ++ [lineItem p (a + b)]) ∧
    (items ++ [lineItem p (a + b)]).filter
      (fun ci => ci.product.id == pid) = [lineItem p (a + b)] ∧
    ((items ++ [lineItem p (a + b)]).map (fun ci => ci.product.id)).Nodup := by
  have hpid : p.id = pid := findById_id products pid p hfind
  have h1 : add_item products items pid a = .ok (items ++ [lineItem p a]) := by
    unfold add_item
    rw [if_neg (by omega : ¬ a ≤ 0), hfind]
    exact addToItems_append items pid p a hnot ha
  refine ⟨h1, ?_, ?_, ?_⟩
  · unfold add_item
    rw [if_neg (by omega : ¬ b ≤ 0), hfind]
    show addToItems pid p b (items ++ [lineItem p a]) = _
    rw [addToItems_merge items pid p b (lineItem p a) hnot hpid
      (by show (0:Int) ≤ a + b; omega)]
    simp [lineItem, Int.cast_add]
  · rw [List.filter_append]
    have hl : items.filter (fun ci => ci.product.id == pid) = [] := by
      rw [List.filter_eq_nil_iff]
      intro ci hci
      simpa using hnot ci hci
    rw [hl]
    simp [lineItem, hpid]
  · have hpin : p.id ∉ items.map (fun ci => ci.product.id) := by
      intro hmem
      obtain ⟨ci, hci, hcieq⟩ := List.mem_map.mp hmem
      exact hnot ci hci (hcieq.trans hpid)
    simp only [List.map_append, List.map_cons, List.map_nil]
    rw [List.nodup_append]
    refine ⟨hnodup, List.nodup_singleton _, ?_⟩
    intro x hx hx2
    simp only [List.mem_singleton] at hx2
    subst hx2
    exact hpin hx

/-- Concrete catalogue for witnesses: the Milk product of the test fixture. -/
def milk : Product := ⟨1, "Milk 1L", 7 / 2⟩

/-- Witness for C6: adding Milk twice (quantities 2 then 3) to an empty cart
yields the single merged line item with quantity 5 and subtotal 17.5. -/
theorem cart_merge_witness :
    add_item [milk] [] 1 2 = .ok [lineItem milk 2] ∧
    add_item [milk] [lineItem milk 2] 1 3 = .ok [lineItem milk (2 + 3)] := by
  have h := cart_merge [milk] [] 1 milk 2 3 rfl (by simp) (by simp)
    (by decide) (by decide)
  exact ⟨by simpa using h.1, by simpa using h.2.1⟩

/-- The distinct failure messages `CartService.add_item` can return,
represented structurally (`onlyAvailable n` is the message
interpolating the available quantity; `capExceeded` the fixed 50-cap
message; `addError` wraps the text of an exception caught from
`Cart.add_item`). -/
inductive SvcFail where
  | qtyNotPositive
  | productNotFound
  | onlyAvailable (available : Int)
  | capExceeded
  | addError (e : PyExn)
  deriving DecidableEq, Repr

/-- The `{"success": bool, "message": str}` dict `CartService.add_item`
returns. -/
inductive SvcResult where
  | added
  | fail (r : SvcFail)
  deriving DecidableEq, Repr

/-- `CartService.add_item`: validates quantity positivity, product existence,
stock availability (against the live stock cache) and then the 50-unit cap —
in that source order — before touching the customer's cart; on the success
path delegates to `Cart.add_item`, catching any exception into a failure
message.  Returns the result dict together with the customer's cart
line items afterwards. -/
def service_add_item (products : List Product) (stock : Stock)
    (items : List CartItem) (pid : Nat) (qty : Int) :
    SvcResult × List CartItem :=
  if qty ≤ 0 then (.fail .qtyNotPositive, items)
  else
    match findById products pid with
    | none => (.fail .productNotFound, items)
    | some _p =>
      let available := check_stock stock pid
      if available < qty then (.fail (.onlyAvailable available), items)
      else if 50 < qty then (.fail .capExceeded, items)
      else
        match add_item products items pid qty with
        | .ok items2 => (.added, items2)
        | .error e => (.fail (.addError e), items)

/-- C10 — Service-layer add limits: for an existing product and positive
quantity, whenever `qty` exceeds the available stock or the 50-unit cap,
`CartService.add_item` fails and leaves the cart untouched; because the
stock check precedes the cap check, any `qty` above availability — even one
also above 50 — yields the "`Only N units available`" message carrying the
available quantity, and the cap message appears only when availability was
sufficient. -/
theorem service_add_limits (products : List Product) (stock : Stock)
    (items : List CartItem) (pid : Nat) (qty : Int) (p : Product)
    (hfind : findById products pid = some p) (hq : 0 < qty)
    (hlim : check_stock stock pid < qty ∨ 50 < qty) :
    (service_add_item products stock items pid qty).2 = items ∧
    (check_stock stock pid < qty →
      (service_add_item products stock items pid qty).1 =
        .fail (.onlyAvailable (check_stock stock pid))) ∧
    (¬ check_stock stock pid < qty →
      (service_add_item products stock items pid qty).1 = .fail .capExceeded) := by
  unfold service_add_item
  rw [if_neg (by omega : ¬ qty ≤ 0), hfind]
  by_cases h1 : check_stock stock pid < qty
  · rw [if_pos h1]
    exact ⟨rfl, fun _ => rfl, fun hc => absurd h1 hc⟩
  · have h50 : 50 < qty := by tauto
    rw [if_neg h1, if_pos h50]
    exact ⟨rfl, fun hc => absurd hc h1, fun _ => rfl⟩

/-- Witness for C10: Milk has 50 units available; asking for 60 fails with
the availability message (reporting 50), not the cap message, and the cart
stays empty. -/
theorem service_add_limits_witness :
    (service_add_item [milk] stock50 [] 1 60).2 = [] ∧
    (service_add_item [milk] stock50 [] 1 60).1 =
      SvcResult.fail (SvcFail.onlyAvailable (check_stock stock50 1)) := by
  have h := service_add_limits [milk] stock50 [] 1 60 milk rfl (by decide)
    (Or.inl (by decide))
  exact ⟨h.1, h.2.1 (by decide)⟩

/-- One entry of an order's snapshotted item list
(`{"product_id", "name", "quantity", "price", "subtotal"}`). -/
structure SnapItem where
  product_id : Nat
  name : String
  quantity : Int
  price : ℚ
  subtotal : ℚ
  deriving DecidableEq

/-- An order record as persisted in the `orders` collection and reconstructed
by `Order.from_dict`: id, customer id, snapshotted items, total, status
string, creation timestamp (an opaque ISO string). -/
structure OrderRec where
  id : Nat
  customer_id : Nat
  items : List SnapItem
  total : ℚ
  status : String
  created_at : String
  deriving DecidableEq

/-- An invoice record (`{"id", "order_id", "total", "paid"}`). -/
structure InvoiceRec where
  id : Nat
  order_id : Nat
  total : ℚ
  paid : Bool
  deriving DecidableEq

/-- A payment record (`{"id", "order_id", "method", "amount", "status"}`). -/
structure PaymentRec where
  id : Nat
  order_id : Nat
  method : String
  amount : ℚ
  status : String
  deriving DecidableEq

/-- `StorageManager.update("orders", oid, {"status": st})` as called from
`Order.mark_paid` / `Order.mark_shipped`: the first record whose id matches
has only its `status` key overwritten; all other records and all other keys
are untouched. -/
def updateOrderStatus (recs : List OrderRec) (oid : Nat) (st : String) :
    List OrderRec :=
  match recs with
  | [] => []
  | r :: rest =>
    if r.id = oid then { r with status := st } :: rest
    else r :: updateOrderStatus rest oid st

/-- `StorageManager.update("invoices", iid, {"paid": True})` as called from
`Invoice.mark_paid`. -/
def updateInvoicePaid (recs : List InvoiceRec) (iid : Nat) : List InvoiceRec :=
  match recs with
  | [] => []
  | r :: rest =>
    if r.id = iid then { r with paid := true } :: rest
    else r :: updateInvoicePaid rest iid

/-- `Order.mark_paid`: sets the in-memory status to `"PAID"` and issues the
status-only storage update. -/
def order_mark_paid (o : OrderRec) (recs : List OrderRec) :
    OrderRec × List OrderRec :=
  ({ o with status := "PAID" }, updateOrderStatus recs o.id "PAID")

/-- `Order.mark_shipped`: sets the in-memory status to `"SHIPPED"` and issues
the status-only storage update. -/
def order_mark_shipped (o : OrderRec) (recs : List OrderRec) :
    OrderRec × List OrderRec :=
  ({ o with status := "SHIPPED" }, updateOrderStatus recs o.id "SHIPPED")

/-- Two order records agreeing on every field except possibly `status`. -/
def SameOrderFrame (a b : OrderRec) : Prop :=
  a.id = b.id ∧ a.customer_id = b.customer_id ∧ a.items = b.items ∧
  a.total = b.total ∧ a.created_at = b.created_at

theorem sameOrderFrame_refl (l : List OrderRec) :
    List.Forall₂ SameOrderFrame l l := by
  induction l with
  | nil => exact List.Forall₂.nil
  | cons r rest ih => exact List.Forall₂.cons ⟨rfl, rfl, rfl, rfl, rfl⟩ ih

theorem updateOrderStatus_frame (recs : List OrderRec) :
    ∀ (oid : Nat) (st : String),
      List.Forall₂ SameOrderFrame (updateOrderStatus recs oid st) recs := by
  induction recs with
  | nil => intro oid st; exact List.Forall₂.nil
  | cons r rest ih =>
    intro oid st
    unfold updateOrderStatus
    split
    · exact List.Forall₂.cons ⟨rfl, rfl, rfl, rfl, rfl⟩ (sameOrderFrame_refl rest)
    · exact List.Forall₂.cons ⟨rfl, rfl, rfl, rfl, rfl⟩ (ih oid st)

/-- C7 — Order immutability frame: once an order exists, `mark_paid` and
`mark_shipped` (the only order mutations reachable from the checkout and
shipping flows) change only the `status` field, both on the in-memory object
and in the stored `orders` collection: the returned object keeps the order's
id, customer id, items list, total and creation timestamp, and the stored
collection is pointwise frame-equal to the old one (`Forall₂` also forces
equal lengths, so no record is added or dropped). -/
theorem order_immutability (o : OrderRec) (recs : List OrderRec) :
    SameOrderFrame (order_mark_paid o recs).1 o ∧
    SameOrderFrame (order_mark_shipped o recs).1 o ∧
    List.Forall₂ SameOrderFrame (order_mark_paid o recs).2 recs ∧
    List.Forall₂ SameOrderFrame (order_mark_shipped o recs).2 recs :=
  ⟨⟨rfl, rfl, rfl, rfl, rfl⟩, ⟨rfl, rfl, rfl, rfl, rfl⟩,
   updateOrderStatus_frame recs o.id "PAID",
   updateOrderStatus_frame recs o.id "SHIPPED"⟩

/-- A record of a generic `StorageManager` collection: its assigned integer
id and an opaque payload standing for the record's other keys. -/
structure StoreRec where
  id : Nat
  payload : Nat
  deriving DecidableEq, Repr

/-- `max((r.get("id", 0) for r in records), default=0)` from
`StorageManager.add`. -/
def maxId (recs : List StoreRec) : Nat :=
  recs.foldl (fun m r => max m r.id) 0

/-- `StorageManager.add`: assigns `max_id + 1` to the record, appends it and
returns it together with the stored list. -/
def storage_add (recs : List StoreRec) (payload : Nat) :
    StoreRec × List StoreRec :=
  let rec2 : StoreRec := ⟨maxId recs + 1, payload⟩
  (rec2, recs ++ [rec2])

/-- `StorageManager.delete`: drops every record with the given id; returns
the stored list and whether anything was deleted. -/
def storage_delete (recs : List StoreRec) (rid : Nat) :
    List StoreRec × Bool :=
  let newRecs := recs.filter (fun r => r.id != rid)
  if newRecs.length ≠ recs.length then (newRecs, true) else (recs, false)

theorem foldl_max_ge (recs : List StoreRec) :
    ∀ acc : Nat, acc ≤ recs.foldl (fun m r => max m r.id) acc ∧
      ∀ r ∈ recs, r.id ≤ recs.foldl (fun m r => max m r.id) acc := by
  induction recs with
  | nil => intro acc; exact ⟨Nat.le_refl acc, by simp⟩
  | cons x rest ih =>
    intro acc
    have h := ih (max acc x.id)
    refine ⟨le_trans (Nat.le_max_left acc x.id) h.1, ?_⟩
    intro r hr
    rcases List.mem_cons.mp hr with rfl | hr
    · exact le_trans (Nat.le_max_right acc r.id) h.1
    · exact h.2 r hr

/-- C9 (as amended) — Identifier assignment: `StorageManager.add` assigns the
new record the id `max(stored ids) + 1`, which is strictly greater than the
id of every *currently stored* record — hence unique among stored records —
and appends the record; ids of deleted records are not remembered and may be
reassigned. -/
theorem storage_add_id_spec (recs : List StoreRec) (payload : Nat) :
    (storage_add recs payload).1.id = maxId recs + 1 ∧
    (∀ r ∈ recs, r.id < (storage_add recs payload).1.id) ∧
    (storage_add recs payload).1.id ∉ recs.map (fun r => r.id) ∧
    (storage_add recs payload).2 = recs ++ [(storage_add recs payload).1] := by
  refine ⟨rfl, ?_, ?_, rfl⟩
  · intro r hr
    have h := (foldl_max_ge recs 0).2 r hr
    show r.id < maxId recs + 1
    unfold maxId
    omega
  · intro hmem
    obtain ⟨r, hr, hrid⟩ := List.mem_map.mp hmem
    have h := (foldl_max_ge recs 0).2 r hr
    have hid : (storage_add recs payload).1.id = maxId recs + 1 := rfl
    unfold maxId at hid
    omega

/-- Witness for C9's amended statement at a concrete store. -/
theorem storage_add_id_spec_witness :
    (storage_add [⟨1, 10⟩, ⟨7, 20⟩] 30).1.id = maxId [⟨1, 10⟩, ⟨7, 20⟩] + 1 ∧
    (⟨7, 20⟩ : StoreRec).id < (storage_add [⟨1, 10⟩, ⟨7, 20⟩] 30).1.id := by
  have h := storage_add_id_spec [⟨1, 10⟩, ⟨7, 20⟩] 30
  exact ⟨h.1, h.2.1 ⟨7, 20⟩ (by simp)⟩

/-- Counterexample to C9 as stated: after `add` (id 1), `add` (id 2),
`delete`(2), the next `add` is assigned id 2 again — equal to, not strictly
greater than, an identifier previously assigned in the collection. -/
theorem storage_id_reuse_counterexample :
    (storage_add ((storage_add ([] : List StoreRec) 10).2) 20).1.id = 2 ∧
    (storage_add
      ((storage_delete
        ((storage_add ((storage_add ([] : List StoreRec) 10).2) 20).2) 2).1)
      30).1.id = 2 := by
  constructor <;> rfl

/-- Applying `item["product_id"]`-style subscription to a `CartItem`:
`CartItem` defines no `__getitem__`, so CPython raises `TypeError` before
producing any value (this is what `OrderService.create_order`'s snapshot
loop does to each cart item; `CartItem.to_dict`, which builds exactly this
dict, is never called there). -/
def cartItemSubscript (α : Type) (_item : CartItem) (_key : String) :
    Except PyExn α :=
  .error .typeError

/-- `item.get(key, default)` on a `CartItem`: the class has no `get`
attribute, so attribute lookup raises `AttributeError`. -/
def cartItemGetDefault (α : Type) (_item : CartItem) (_key : String)
    (_default : α) : Except PyExn α :=
  .error .attributeError

/-- One iteration of `OrderService.create_order`'s snapshot loop, reading
`item["product_id"]`, `item["name"]`, `item.get("qty", 0)`,
`item.get("price", 0)` and `item.get("subtotal", 0)` from a `CartItem`. -/
def snapshotItem (item : CartItem) : Except PyExn SnapItem := do
  let pid ← cartItemSubscript Nat item "product_id"
  let nm ← cartItemSubscript String item "name"
  let q ← cartItemGetDefault Int item "qty" 0
  let pr ← cartItemGetDefault ℚ item "price" 0
  let sub ← cartItemGetDefault ℚ item "subtotal" 0
  return ⟨pid, nm, q, pr, sub⟩

/-- The snapshot loop over the whole cart, stopping at the first raise. -/
def snapshotItems (items : List CartItem) : Except PyExn (List SnapItem) :=
  match items with
  | [] => .ok []
  | it :: rest => do
    let x ← snapshotItem it
    let xs ← snapshotItems rest
    return x :: xs

/-- `method.lower()` (`str.lower` on the ASCII method strings the factory
compares against). -/
def pyLower (s : String) : String := String.mk (s.data.map Char.toLower)

/-- The state handled by a checkout attempt: the stock cache, the customer's
cart line items, the three record collections the checkout writes, and the
set of known customer ids (for `Customer.find_by_id`). -/
structure SysState where
  stock : Stock
  cartItems : List CartItem
  orders : List OrderRec
  invoices : List InvoiceRec
  payments : List PaymentRec
  customers : List Nat

/-- Auto-increment id for the `orders` collection (`StorageManager.add`). -/
def ordersMaxId (recs : List OrderRec) : Nat :=
  recs.foldl (fun m r => max m r.id) 0

/-- Auto-increment id for the `invoices` collection. -/
def invoicesMaxId (recs : List InvoiceRec) : Nat :=
  recs.foldl (fun m r => max m r.id) 0

/-- Auto-increment id for the `payments` collection. -/
def paymentsMaxId (recs : List PaymentRec) : Nat :=
  recs.foldl (fun m r => max m r.id) 0

/-- The structured failure messages of `create_order`. -/
inductive CheckoutFail where
  | insufficientStock
  | stockReservationFailed (e : PyExn)
  | paymentFailed (e : PyExn)
  deriving DecidableEq, Repr

/-- How a call to `OrderService.create_order` ends: a success dict, a
`{"success": False}` dict, or an uncaught exception propagating to the
caller. -/
inductive CheckoutOutcome where
  | success (order_id : Nat) (total : ℚ) (invoice_id : Nat) (method : String)
  | failure (reason : CheckoutFail)
  | exn (e : PyExn)
  deriving DecidableEq

/-- `OrderService.create_order(customer_id, payment_method)`, step for step:
empty-cart check (raises `CartEmptyError`); `cart.reserve_all()` with
`InsufficientStockError` returned as a failure dict and any other exception
compensated by a swallowed `release_all` and a failure dict; the snapshot
loop over `cart.items` (whose subscripts of `CartItem` objects raise
`TypeError`, which nothing catches); `Order.create` (raising `ValueError`
when the customer id is unknown, also uncaught); `Invoice.create`;
`PaymentFactory.create`/`process` under `try/except` with an *unprotected*
`cart.release_all()` in the handler; then `invoice.mark_paid()`,
`order.mark_paid()` and `cart.clear()` before the success dict.  `now` is
the `datetime.now().isoformat()` timestamp. -/
def create_order (st : SysState) (customer_id : Nat) (method : String)
    (now : String) : CheckoutOutcome × SysState :=
  if st.cartItems.isEmpty then (.exn .cartEmpty, st)
  else
    let total := cartTotal st.cartItems
    let r := cart_reserve_all st.stock st.cartItems
    match r.err with
    | some PyExn.insufficientStock =>
      (.failure .insufficientStock, { st with stock := r.state })
    | some e =>
      let rel := cart_release_all r.state st.cartItems
      (.failure (.stockReservationFailed e), { st with stock := rel.state })
    | none =>
      let st1 := { st with stock := r.state }
      match snapshotItems st.cartItems with
      | .error e => (.exn e, st1)
      | .ok order_items =>
        if customer_id ∈ st1.customers then
          let oid := ordersMaxId st1.orders + 1
          let orec : OrderRec :=
            ⟨oid, customer_id, order_items, total, "CREATED", now⟩
          let st2 := { st1 with orders := st1.orders ++ [orec] }
          let iid := invoicesMaxId st2.invoices + 1
          let st3 := { st2 with invoices :=
            st2.invoices ++ [(⟨iid, oid, total, false⟩ : InvoiceRec)] }
          if pyLower method = "card" ∨ pyLower method = "wallet" then
            let payid := paymentsMaxId st3.payments + 1
            let st4 := { st3 with payments :=
              st3.payments ++ [(⟨payid, oid, pyLower method, total, "APPROVED"⟩ : PaymentRec)] }
            let st5 := { st4 with
              invoices := updateInvoicePaid st4.invoices iid,
              orders := updateOrderStatus st4.orders oid "PAID",
              cartItems := [] }
            (.success oid total iid method, st5)
          else
            let rel := cart_release_all st3.stock st.cartItems
            match rel.err with
            | some e2 => (.exn e2, { st3 with stock := rel.state })
            | none =>
              (.failure (.paymentFailed .valueError),
                { st3 with stock := rel.state })
        else
          (.exn .valueError, st1)

/-- The concrete checkout state of the repository's own `test_checkout_success`
fixture: customer 1, Milk (product 1, price 3.50) stocked at 50, two units of
Milk in the cart, no orders/invoices/payments yet. -/
def testState : SysState :=
  { stock := stock50
    cartItems := [lineItem milk 2]
    orders := []
    invoices := []
    payments := []
    customers := [1] }

/-- C1 — Checkout totality fails in the code: on the test fixture's own
happy-path input (non-empty cart, ample stock, method `"card"`) the snapshot
loop subscripts `CartItem` objects and the resulting `TypeError` propagates
uncaught — the call returns no structured result at all (neither a success
dict nor one of the four failure reasons), though the cart does keep its
line items. -/
theorem checkout_totality_bug :
    (create_order testState 1 "card" "t").1 = .exn PyExn.typeError ∧
    (create_order testState 1 "card" "t").2.cartItems = testState.cartItems := by
  constructor <;> rfl

/-- C4 — Rollback on order-creation failure is absent in the code: on the
same input, stock reservation succeeds (Milk 50 → 48), the snapshot step
fails, and `create_order` neither releases the reservation (stock stays 48)
nor returns a failure dict (the `TypeError` escapes instead). -/
theorem checkout_missing_rollback_bug :
    check_stock testState.stock 1 = 50 ∧
    check_stock (create_order testState 1 "card" "t").2.stock 1 = 48 ∧
    (create_order testState 1 "card" "t").1 = .exn PyExn.typeError := by
  refine ⟨rfl, rfl, rfl⟩

end OCSS
